import Mathlib

/-
Verification of the message-composition and delivery contract of
`src/development/Email.py` (class `Email`).

The Python class is shallowly embedded: the mutable builder object becomes the
`Email` structure, each method becomes a Lean function on it, exceptions become
an `Err` sum propagated through `Except`, and the three external collaborators
(filesystem, `mimetypes.guess_type`, SMTP client) become an `Env` record of
oracle functions.  `send` additionally returns the list of collaborator
`Event`s it performed, so that "no network I/O happened" is a statement about a
value.  Python exceptions leave earlier in-place mutations behind, so the
mutators that can raise return `Except (Err × Email) Email`: the error carries
the object state at the moment of the raise.
-/

namespace EmailPro

/-- Characters matched by the ASCII regex class `\s` (the source is Python 2,
where `\s` on a byte string is exactly this set). -/
def isPySpace (c : Char) : Bool :=
  c == ' ' || c == '\t' || c == '\n' || c == '\r' || c == '\x0b' || c == '\x0c'

/-- Membership in `self._addressDelimiters = ',\n\r'` (Email.py line 41). -/
def isAddressDelim (c : Char) : Bool :=
  c == ',' || c == '\n' || c == '\r'

/-- Python `str.strip(chars)`: remove the leading and the trailing run of
characters drawn from the given set. -/
def pyStrip (isStripped : Char → Bool) (cs : List Char) : List Char :=
  ((cs.dropWhile isStripped).reverse.dropWhile isStripped).reverse

/-- Python `re.split('[' + delims + ']\s*', s)` (Email.py line 201): each
separator match is one delimiter character followed by the maximal run of
whitespace; the fragments between matches are returned, empty fragments
included.  The `skip` flag records being inside the `\s*` tail of the previous
separator match, which greedily consumes whitespace (including delimiter
characters that are themselves whitespace, such as `'\n'`). -/
def pySplitDelim (isDelim : Char → Bool) : List Char → Bool → List (List Char)
  | [], _ => [[]]
  | c :: rest, skip =>
    if skip && isPySpace c then
      pySplitDelim isDelim rest true
    else if isDelim c then
      [] :: pySplitDelim isDelim rest true
    else
      match pySplitDelim isDelim rest false with
      | [] => [[c]]
      | frag :: frags => (c :: frag) :: frags

/-- One anchored attempt of the compiled pattern `^[^@]+@[^@]+\.[^@]+$`
(Email.py line 54) against a full character list, i.e. whether the list
decomposes as a nonempty `'@'`-free block, `'@'`, and an `'@'`-free remainder
containing an interior `'.'`.  The block before `'@'` is forced to be the
maximal `'@'`-free prefix, because the `'@'` of the pattern must consume the
first `'@'` of the input. -/
def emailCoreMatch (cs : List Char) : Bool :=
  match cs.dropWhile (fun c => c != '@') with
  | [] => false
  | _ :: rest =>
    decide (cs.takeWhile (fun c => c != '@') ≠ []) && decide ('@' ∉ rest)
      && decide ('.' ∈ (rest.drop 1).dropLast)

/-- `Email.validateEmailAddress` (Email.py lines 258-267): the result of
`self._reEmail.search(address) is not None` for the pattern compiled at line
54.  With `^` the search can only match from position 0, and Python's `$`
(without `re.MULTILINE`) matches at the end of the string or just before one
final newline, hence the second disjunct. -/
def validateEmailAddress (address : String) : Bool :=
  emailCoreMatch address.data ||
    (match address.data.getLast? with
     | some c => c == '\n' && emailCoreMatch address.data.dropLast
     | none => false)

/-- Spec-side reading of the address pattern, written from the spec's words:
the string literally has the form
`<non-"@"-chars>@<non-"@"-chars>.<non-"@"-chars>` with all three blocks
nonempty and nothing before or after. -/
def specLiteralMatch (s : String) : Prop :=
  ∃ A B C : List Char,
    s.data = A ++ '@' :: (B ++ '.' :: C) ∧
    A ≠ [] ∧ B ≠ [] ∧ C ≠ [] ∧ '@' ∉ A ∧ '@' ∉ B ∧ '@' ∉ C

/-- `os.path.basename`: the part of the path after the last `'/'`. -/
def basename (s : String) : String :=
  String.mk ((s.data.reverse.takeWhile (fun c => c != '/')).reverse)

/-- Python `ctype.split('/', 1)` followed by unpacking into two names
(Email.py line 95): split at the first `'/'`; `none` models the `ValueError`
that unpacking raises when the string has no `'/'`. -/
def splitSlash1 (s : String) : Option (String × String) :=
  match s.data.dropWhile (fun c => c != '/') with
  | [] => none
  | _ :: rest => some (String.mk (s.data.takeWhile (fun c => c != '/')), String.mk rest)

/-- Python `", ".join(l)` (Email.py lines 127-129). -/
def joinComma (l : List String) : String :=
  String.intercalate ", " l

/-- The exceptions the source can raise, named by kind.  The first five carry
the data interpolated into the exception message at the raise site.
`attributeError` is Python's `AttributeError` from reading `self._from` when
`setFrom` never ran (the attribute is not created in `__init__`);
`pyValueError` is Python's `ValueError` from unpacking `ctype.split('/', 1)`
when the guessed type has no `'/'`. -/
inductive Err where
  | missingBody
  | missingRecipient
  | invalidAddress (kind : String) (address : String)
  | attachmentNotFound (path : String)
  | attachmentNotAFile (path : String)
  | attributeError
  | pyValueError
deriving DecidableEq

/-- A MIME header as injected by `msg[name] = value` or
`add_header(name, value, param=...)`: name, value, and named parameters. -/
structure Header where
  name : String
  value : String
  params : List (String × String)
deriving DecidableEq

/-- The MIME part tree built by the `email.MIME*` collaborator classes, one
constructor per class used by the source: `MIMEText`, `MIMEImage`,
`MIMEAudio`, `MIMEBase` (with its explicit Base64 content-transfer-encoding
flag), and `MIMEMultipart`.  Each part carries the headers injected into it;
implicit library headers (Content-Type and the implicit encodings of the
text/image/audio classes) and wire serialization are abstracted. -/
inductive MimePart where
  | textPart (body : String) (subtype : String) (hs : List Header)
  | imagePart (payload : String) (subtype : String) (hs : List Header)
  | audioPart (payload : String) (subtype : String) (hs : List Header)
  | basePart (maintype : String) (subtype : String) (payload : String) (base64 : Bool) (hs : List Header)
  | multiPart (subtype : String) (parts : List MimePart) (hs : List Header)

/-- `Message.attach`: append a part to a multipart container's payload list.
The source only ever calls it on multiparts; on a leaf it is the identity
here (the library would raise). -/
def MimePart.attach : MimePart → MimePart → MimePart
  | .multiPart sub parts hs, p => .multiPart sub (parts ++ [p]) hs
  | m, _ => m

/-- Header injection (`msg[name] = value` / `add_header`): appends. -/
def MimePart.addHeader : MimePart → Header → MimePart
  | .textPart b s hs, h => .textPart b s (hs ++ [h])
  | .imagePart p s hs, h => .imagePart p s (hs ++ [h])
  | .audioPart p s hs, h => .audioPart p s (hs ++ [h])
  | .basePart m s p b hs, h => .basePart m s p b (hs ++ [h])
  | .multiPart s ps hs, h => .multiPart s ps (hs ++ [h])

/-- The headers carried by a part. -/
def MimePart.headers : MimePart → List Header
  | .textPart _ _ hs => hs
  | .imagePart _ _ hs => hs
  | .audioPart _ _ hs => hs
  | .basePart _ _ _ _ hs => hs
  | .multiPart _ _ hs => hs

/-- `email.Encoders.encode_base64` (Email.py line 114): Base64-encode the
payload and record the `Content-Transfer-Encoding: base64` header.  The
source only applies it to the `MIMEBase` branch; elsewhere it is the
identity here. -/
def encodeBase64 : MimePart → MimePart
  | .basePart m s p _ hs =>
    .basePart m s p true (hs ++ [⟨"Content-Transfer-Encoding", "base64", []⟩])
  | m => m

/-- One observable call to a collaborator during `send`: a filesystem access
(`os.path.exists`, `os.path.isfile`, `open(...).read()`) or an SMTP client
operation.  `smtpSendmail` is the submission of the composed message with its
envelope sender and recipients. -/
inductive Event where
  | fsExists (path : String)
  | fsIsFile (path : String)
  | fsOpenRead (path : String)
  | smtpConnect (host : String) (port : Nat)
  | smtpConnectSSL (host : String) (port : Nat)
  | smtpEhlo
  | smtpStartTLS
  | smtpLogin (user : String)
  | smtpSendmail (sender : String) (rcpts : List String) (msg : MimePart)
  | smtpQuit

/-- Whether an event is an SMTP client operation (as opposed to a filesystem
access). -/
def Event.isSmtp : Event → Bool
  | .fsExists _ => false
  | .fsIsFile _ => false
  | .fsOpenRead _ => false
  | _ => true

/-- The SMTP server as `send` can observe it: whether `EHLO` advertised the
`STARTTLS` extension, and the per-recipient result that a successful
`sendmail` call returns (the dictionary of refused recipients). -/
structure SmtpOracle where
  hasSTARTTLS : Bool := true
  sendmailResult : List (String × String) := []

/-- The external collaborators of `send`: filesystem predicates and reads,
`mimetypes.guess_type` (content type and content encoding), and the SMTP
server. -/
structure Env where
  pathExists : String → Bool
  isFile : String → Bool
  readFile : String → String
  guessType : String → Option String × Option String
  smtp : SmtpOracle

/-- The `Email` builder object.  Connection parameters are the `__init__`
arguments; the remaining fields are the accumulator state `__init__`
initializes (Email.py lines 30-56).  `from_` is `Option` because `__init__`
never creates `self._from`: `none` models the absent attribute. -/
structure Email where
  smtpServer : String
  smtpPort : Nat := 25
  hostname : String := ""
  username : String := ""
  password : String := ""
  debugLevel : Nat := 0
  textBody : Option String := none
  htmlBody : Option String := none
  subject : String := ""
  replyTo : Option String := none
  from_ : Option String := none
  to_ : List String := []
  cc : List String := []
  bcc : List String := []
  attach : List (String × Option String) := []
deriving DecidableEq

/-- `Email.clearRecipients` (Email.py lines 175-182). -/
def Email.clearRecipients (e : Email) : Email :=
  { e with to_ := [], cc := [], bcc := [] }

/-- `Email.clearAttachments` (Email.py lines 228-232). -/
def Email.clearAttachments (e : Email) : Email :=
  { e with attach := [] }

/-- `Email.setSubject` (Email.py lines 161-165). -/
def Email.setSubject (e : Email) (subject : String) : Email :=
  { e with subject := subject }

/-- `Email.setTextBody` (Email.py lines 207-211). -/
def Email.setTextBody (e : Email) (body : String) : Email :=
  { e with textBody := some body }

/-- `Email.setHtmlBody` (Email.py lines 213-217). -/
def Email.setHtmlBody (e : Email) (body : String) : Email :=
  { e with htmlBody := some body }

/-- `Email.setFrom` (Email.py lines 167-173): validate, raise before any
mutation on failure, else store. -/
def Email.setFrom (e : Email) (address : String) : Except (Err × Email) Email :=
  if !validateEmailAddress address then
    .error (.invalidAddress "FROM" address, e)
  else
    .ok { e with from_ := some address }

/-- `Email.setReplyTo` (Email.py lines 219-226). -/
def Email.setReplyTo (e : Email) (address : String) : Except (Err × Email) Email :=
  if !validateEmailAddress address then
    .error (.invalidAddress "REPLY-TO" address, e)
  else
    .ok { e with replyTo := some address }

/-- `Email.addRecipient` (Email.py lines 184-195): validate, raise before any
mutation on failure, else append to the list selected by the kind
(`'CC'`, `'BCC'`, anything else appends to `to`).  The Python default for the
kind argument is `'TO'`; callers modelling the default pass `"TO"`. -/
def Email.addRecipient (e : Email) (address : String) (ty : String) : Except (Err × Email) Email :=
  if !validateEmailAddress address then
    .error (.invalidAddress ty address, e)
  else if ty == "CC" then
    .ok { e with cc := e.cc ++ [address] }
  else if ty == "BCC" then
    .ok { e with bcc := e.bcc ++ [address] }
  else
    .ok { e with to_ := e.to_ ++ [address] }

/-- One iteration of the `Email.addRecipients` loop (Email.py lines 202-205):
with `type` present it is passed through to `addRecipient`, otherwise
`addRecipient` runs with its default kind `'TO'`. -/
def Email.recipientCall (e : Email) (a : String) (ty : Option String) :
    Except (Err × Email) Email :=
  match ty with
  | some t => e.addRecipient a t
  | none => e.addRecipient a "TO"

/-- The loop of `Email.addRecipients` (Email.py lines 201-205), one call of
`addRecipient` per fragment.  An exception propagates immediately, carrying
the partially mutated object. -/
def Email.addRecipientList (e : Email) (frags : List String) (ty : Option String) :
    Except (Err × Email) Email :=
  match frags with
  | [] => .ok e
  | a :: rest =>
    match e.recipientCall a ty with
    | .error er => .error er
    | .ok e' => e'.addRecipientList rest ty

/-- `Email.addRecipients` (Email.py lines 197-205):
`re.split('[' + self._addressDelimiters + ']\s*',
addressList.strip(self._addressDelimiters))`, then `addRecipient` per
fragment. -/
def Email.addRecipients (e : Email) (addressList : String) (ty : Option String) :
    Except (Err × Email) Email :=
  e.addRecipientList
    ((pySplitDelim isAddressDelim (pyStrip isAddressDelim addressList.data) false).map String.mk)
    ty

/-- `Email.addAttachment` (Email.py lines 234-249): `None` is a silent no-op
(`if filepath is None: return`); any other path, the empty string included,
is appended unconditionally, with no filesystem access. -/
def Email.addAttachment (e : Email) (filepath : Option String) (attachname : Option String) : Email :=
  match filepath with
  | none => e
  | some p => { e with attach := e.attach ++ [(p, attachname)] }

/-- Whether `mimetypes.guess_type` followed by the source's fallback and the
`ctype.split('/', 1)` unpacking goes through without a `ValueError`: only a
guessed type without `'/'` and without a content encoding can fail, since the
fallback `'application/octet-stream'` always splits. -/
def guessOk (env : Env) (p : String) : Bool :=
  match env.guessType p with
  | (none, _) => true
  | (some _, some _) => true
  | (some c, none) => (splitSlash1 c).isSome

/-- The content-type guess with the source's binary fallback (Email.py lines
91-94): `mimetypes.guess_type`, forced to `'application/octet-stream'` when no
guess could be made or the guess carries a content encoding. -/
def guessCType (env : Env) (fname : String) : String :=
  match env.guessType fname with
  | (none, _) => "application/octet-stream"
  | (some _, some _) => "application/octet-stream"
  | (some c, none) => c

/-- One iteration of the attachment loop in `Email.send` (Email.py lines
83-121): existence check, regular-file check, content-type guess with binary
fallback, dispatch on the main type, filename parameter, `Content-Disposition`
header, and attach to the container.  Returns the filesystem accesses
performed and either the raised exception or the container with the new part
attached. -/
def attachOne (env : Env) (msg : MimePart) (fname : String) (attachname : Option String) :
    List Event × Except Err MimePart :=
  if !env.pathExists fname then
    ([.fsExists fname], .error (.attachmentNotFound fname))
  else if !env.isFile fname then
    ([.fsExists fname, .fsIsFile fname], .error (.attachmentNotAFile fname))
  else
    match splitSlash1 (guessCType env fname) with
    | none => ([.fsExists fname, .fsIsFile fname], .error .pyValueError)
    | some (maintype, subtype) =>
      let attachPart : MimePart :=
        if maintype == "text" then
          .textPart (env.readFile fname) subtype []
        else if maintype == "image" then
          .imagePart (env.readFile fname) subtype []
        else if maintype == "audio" then
          .audioPart (env.readFile fname) subtype []
        else
          encodeBase64 (.basePart maintype subtype (env.readFile fname) false [])
      let filename : String :=
        match attachname with
        | none => basename fname
        | some n => n
      let attachPart := attachPart.addHeader ⟨"Content-Disposition", "attachment", [("filename", filename)]⟩
      ([.fsExists fname, .fsIsFile fname, .fsOpenRead fname], .ok (msg.attach attachPart))

/-- The attachment loop of `Email.send` (Email.py lines 83-121) over the
`self._attach` list in insertion order, accumulating the filesystem accesses
and stopping at the first raised exception. -/
def attachAll (env : Env) (msg : MimePart) : List (String × Option String) →
    List Event × Except Err MimePart
  | [] => ([], .ok msg)
  | (f, nm) :: rest =>
    match attachOne env msg f nm with
    | (evs, .error er) => (evs, .error er)
    | (evs, .ok msg') =>
      let (evs', r) := attachAll env msg' rest
      (evs ++ evs', r)

/-- The wrapping step of `Email.send` (Email.py lines 79-82): when any
attachments exist, the body part becomes the first part of an outer generic
multipart container (`MIMEMultipart()` defaults to subtype `mixed`). -/
def wrapIfAttach (e : Email) (body : MimePart) : MimePart :=
  if e.attach.isEmpty then body
  else (MimePart.multiPart "mixed" [] []).attach body

/-- The tail of `Email.send` after the message part is built (Email.py lines
78-134): wrap in a generic multipart when attachments exist (`MIMEMultipart()`
defaults to subtype `mixed`), run the attachment loop, then assemble headers:
`Subject`, then `From` — reading `self._from` raises `AttributeError` when
`setFrom` never ran — then `To`/`CC`/`BCC` comma-joined and `reply-to` only if
set.  The preamble assignment and `as_string()` serialization (lines 132-133)
only affect the wire text, which is abstracted.  Returns the events performed
and either the raised exception or the completed message together with the
`self._from` value used for the envelope sender. -/
def assembleRest (e : Email) (env : Env) (body : MimePart) :
    List Event × Except Err (MimePart × String) :=
  match attachAll env (wrapIfAttach e body) e.attach with
  | (evs, .error er) => (evs, .error er)
  | (evs, .ok msg1) =>
    let msg2 := msg1.addHeader ⟨"Subject", e.subject, []⟩
    match e.from_ with
    | none => (evs, .error .attributeError)
    | some f =>
      let msg3 := (((msg2.addHeader ⟨"From", f, []⟩).addHeader
        ⟨"To", joinComma e.to_, []⟩).addHeader
        ⟨"CC", joinComma e.cc, []⟩).addHeader
        ⟨"BCC", joinComma e.bcc, []⟩
      let msg4 :=
        match e.replyTo with
        | none => msg3
        | some r => msg3.addHeader ⟨"reply-to", r, []⟩
      (evs, .ok (msg4, f))

/-- The message-part construction of `Email.send` (Email.py lines 68-76):
exactly one body set gives a single `MIMEText` of the corresponding subtype;
both set give a `MIMEMultipart("alternative")` with the plain part attached
first and the HTML part second.  The `(none, none)` case is unreachable:
`send` raises `missingBody` before reaching this code. -/
def assembleBody (e : Email) (env : Env) : List Event × Except Err (MimePart × String) :=
  match e.textBody, e.htmlBody with
  | some t, none => assembleRest e env (.textPart t "plain" [])
  | none, some h => assembleRest e env (.textPart h "html" [])
  | some t, some h =>
    assembleRest e env (.multiPart "alternative" [.textPart t "plain" [], .textPart h "html" []] [])
  | none, none => ([], .error .missingBody)

/-- Steps 1-5 of `Email.send` (Email.py lines 62-134): the two precondition
checks in source order — no body at all raises first, then an empty `to`
list — before any body assembly, filesystem access, or network I/O; then body
construction, the attachment loop, and header assembly. -/
def assembleMessage (e : Email) (env : Env) : List Event × Except Err (MimePart × String) :=
  if e.textBody.isNone && e.htmlBody.isNone then
    ([], .error .missingBody)
  else if e.to_.length == 0 then
    ([], .error .missingRecipient)
  else
    assembleBody e env

/-- The transmission step of `Email.send` (Email.py lines 136-159): connect,
`ehlo`, and — only when a username is configured — either `starttls` (when the
server advertises the extension) or quit-and-reconnect over implicit SSL,
followed by a second `ehlo` and `login`; then `sendmail` with envelope sender
`self._from` and envelope recipients `to ++ cc ++ bcc`, and the best-effort
`quit` of the `finally` block. -/
def transmit (e : Email) (env : Env) (f : String) (msg : MimePart) :
    List Event × List (String × String) :=
  let auth : List Event :=
    if e.username != "" then
      (if env.smtp.hasSTARTTLS then [.smtpStartTLS]
       else [.smtpQuit, .smtpConnectSSL e.smtpServer e.smtpPort])
        ++ [.smtpEhlo, .smtpLogin e.username]
    else []
  ([.smtpConnect e.smtpServer e.smtpPort, .smtpEhlo] ++ auth
     ++ [.smtpSendmail f (e.to_ ++ e.cc ++ e.bcc) msg, .smtpQuit],
   env.smtp.sendmailResult)

/-- `Email.send` (Email.py lines 58-159): assemble the message, then — only if
assembly raised nothing — transmit it.  The returned event list is every
collaborator call performed; the result is the `sendmail` per-recipient
dictionary or the exception raised. -/
def send (e : Email) (env : Env) : List Event × Except Err (List (String × String)) :=
  match assembleMessage e env with
  | (evs, .error er) => (evs, .error er)
  | (evs, .ok (msg, f)) =>
    let (tevs, res) := transmit e env f msg
    (evs ++ tevs, .ok res)

/-- A concrete message object as produced by `Email('smtp.example.com')`. -/
def testEmail : Email :=
  { smtpServer := "smtp.example.com" }

/-- A concrete environment where every path exists as a regular file reading
as `"PAYLOAD"` and no content type can be guessed. -/
def envAllGood : Env :=
  { pathExists := fun _ => true
    isFile := fun _ => true
    readFile := fun _ => "PAYLOAD"
    guessType := fun _ => (none, none)
    smtp := {} }

/-- A concrete environment where no path exists. -/
def envNothingExists : Env :=
  { pathExists := fun _ => false
    isFile := fun _ => false
    readFile := fun _ => ""
    guessType := fun _ => (none, none)
    smtp := {} }

/-- A concrete environment where every path exists but none is a regular
file. -/
def envNotAFile : Env :=
  { pathExists := fun _ => true
    isFile := fun _ => false
    readFile := fun _ => ""
    guessType := fun _ => (none, none)
    smtp := {} }

/-- A concrete message with both bodies, a sender, and one recipient. -/
def emailBoth : Email :=
  { smtpServer := "smtp.example.com", textBody := some "T", htmlBody := some "H",
    from_ := some "a@b.com", to_ := ["c@d.com"] }

/-- A concrete message whose single attachment path is `/absent`. -/
def emailOneAttach : Email :=
  { smtpServer := "smtp.example.com", textBody := some "hi",
    from_ := some "a@b.com", to_ := ["c@d.com"], attach := [("/absent", none)] }

/-- A concrete message with an attachment but no sender address ever set. -/
def emailNoFrom : Email :=
  { smtpServer := "smtp.example.com", textBody := some "hi",
    to_ := ["c@d.com"], attach := [("/tmp/f.bin", none)] }

/- ### Helper lemmas about the regex embedding -/

lemma takeWhile_append_cons {p : Char → Bool} {A : List Char} (hA : ∀ a ∈ A, p a = true)
    {x : Char} (hx : p x = false) (r : List Char) :
    (A ++ x :: r).takeWhile p = A ∧ (A ++ x :: r).dropWhile p = x :: r := by
  induction A with
  | nil => simp [List.takeWhile_cons, List.dropWhile_cons, hx]
  | cons a A ih =>
    have ha : p a = true := hA a (by simp)
    have h' := ih (fun b hb => hA b (by simp [hb]))
    simp [List.takeWhile_cons, List.dropWhile_cons, ha, h'.1, h'.2]

lemma mem_takeWhile_sat {p : Char → Bool} : ∀ {cs : List Char} {a : Char},
    a ∈ cs.takeWhile p → p a = true := by
  intro cs
  induction cs with
  | nil => intro a h; simp [List.takeWhile] at h
  | cons c t ih =>
    intro a h
    rw [List.takeWhile_cons] at h
    by_cases hc : p c
    · simp [hc] at h
      rcases h with h | h
      · rwa [h]
      · exact ih h
    · simp [hc] at h

lemma dropWhile_head_false {p : Char → Bool} : ∀ {cs : List Char} {x : Char} {r : List Char},
    cs.dropWhile p = x :: r → p x = false := by
  intro cs
  induction cs with
  | nil => intro x r h; simp [List.dropWhile] at h
  | cons c t ih =>
    intro x r h
    rw [List.dropWhile_cons] at h
    by_cases hc : p c
    · simp [hc] at h
      exact ih h
    · simp [hc] at h
      rw [← h.1]
      simpa using hc

lemma emailCoreMatch_eq_nil {cs : List Char}
    (hdw : cs.dropWhile (fun c => c != '@') = []) : emailCoreMatch cs = false := by
  unfold emailCoreMatch
  rw [hdw]

lemma emailCoreMatch_eq_cons {cs : List Char} {x : Char} {rest : List Char}
    (hdw : cs.dropWhile (fun c => c != '@') = x :: rest) :
    emailCoreMatch cs =
      (decide (cs.takeWhile (fun c => c != '@') ≠ []) && decide ('@' ∉ rest)
        && decide ('.' ∈ (rest.drop 1).dropLast)) := by
  unfold emailCoreMatch
  rw [hdw]

/-- From a literal decomposition of the pattern, the anchored match
succeeds. -/
lemma emailCoreMatch_of_decomp {A B C : List Char} (hA : A ≠ []) (hB : B ≠ []) (hC : C ≠ [])
    (hAa : '@' ∉ A) (hBa : '@' ∉ B) (hCa : '@' ∉ C) :
    emailCoreMatch (A ++ '@' :: (B ++ '.' :: C)) = true := by
  have hA' : ∀ a ∈ A, (a != '@') = true := by
    intro a ha
    have hne : a ≠ '@' := by
      rintro rfl
      exact hAa ha
    simpa [bne_iff_ne] using hne
  have hx : (('@' : Char) != '@') = false := by decide
  obtain ⟨tw, dw⟩ := takeWhile_append_cons hA' hx (B ++ '.' :: C)
  obtain ⟨b, B', rfl⟩ := List.exists_cons_of_ne_nil hB
  obtain ⟨C', c, hCc⟩ := (List.eq_nil_or_concat C).resolve_left hC
  subst hCc
  simp only [List.concat_eq_append] at tw dw hCa ⊢
  rw [emailCoreMatch_eq_cons dw, tw]
  have hdot : '.' ∈ ((((b :: B') ++ '.' :: (C' ++ [c])).drop 1).dropLast) := by
    have hrw : ((b :: B') ++ '.' :: (C' ++ [c])).drop 1 = (B' ++ '.' :: C') ++ [c] := by
      simp
    rw [hrw, List.dropLast_concat]
    simp
  simp only [Bool.and_eq_true, decide_eq_true_eq]
  refine ⟨⟨hA, ?_⟩, hdot⟩
  intro hmem
  rcases List.mem_append.mp hmem with h | h
  · exact hBa (by simpa using h)
  · rcases List.mem_cons.mp h with h | h
    · exact absurd h (by decide)
    · exact hCa (by simpa using h)

/-- The anchored match forces exactly one `'@'`. -/
lemma count_at_of_emailCoreMatch {cs : List Char} (h : emailCoreMatch cs = true) :
    cs.count '@' = 1 := by
  rcases hdw : cs.dropWhile (fun c => c != '@') with _ | ⟨d, rest⟩
  · rw [emailCoreMatch_eq_nil hdw] at h
    exact absurd h (by simp)
  · rw [emailCoreMatch_eq_cons hdw] at h
    simp only [Bool.and_eq_true, decide_eq_true_eq] at h
    obtain ⟨⟨-, hrest⟩, -⟩ := h
    have hd : (fun c => c != '@') d = false :=
      @dropWhile_head_false (fun c => c != '@') cs d rest hdw
    have hd' : d = '@' := by simpa [bne] using hd
    have hsplit : cs.takeWhile (fun c => c != '@') ++ d :: rest = cs := by
      rw [← hdw]
      exact List.takeWhile_append_dropWhile _ _
    have htw : ('@' : Char) ∉ cs.takeWhile (fun c => c != '@') := by
      intro hmem
      have hsat := mem_takeWhile_sat hmem
      simp [bne] at hsat
    rw [← hsplit, List.count_append, List.count_cons,
      List.count_eq_zero.mpr htw, List.count_eq_zero.mpr hrest]
    simp [hd']

/-- If no `'.'` follows the first `'@'`, the anchored match fails. -/
lemma emailCoreMatch_false_of_no_dot {cs : List Char}
    (hno : '.' ∉ (cs.dropWhile (fun c => c != '@')).drop 1) : emailCoreMatch cs = false := by
  rcases hdw : cs.dropWhile (fun c => c != '@') with _ | ⟨d, rest⟩
  · exact emailCoreMatch_eq_nil hdw
  · rw [emailCoreMatch_eq_cons hdw]
    have hrest : '.' ∉ rest := by
      intro hmem
      apply hno
      rw [hdw]
      simpa using hmem
    have hdot : '.' ∉ (rest.drop 1).dropLast := by
      intro hmem
      exact hrest (List.drop_subset 1 rest (List.dropLast_subset _ hmem))
    simp only [List.drop_one] at hdot
    simp [hdot]

lemma data_eq_dropLast_append {l : List Char} {c : Char} (h : l.getLast? = some c) :
    l = l.dropLast ++ [c] :=
  (List.dropLast_append_getLast? c h).symm

/-- If the anchored attempt fails on both the whole list and (when the list
ends in a newline) on the list without it, validation fails. -/
lemma validateEmailAddress_eq_false {s : String}
    (h1 : emailCoreMatch s.data = false)
    (h2 : s.data.getLast? = some '\n' → emailCoreMatch s.data.dropLast = false) :
    validateEmailAddress s = false := by
  unfold validateEmailAddress
  rw [h1]
  cases hl : s.data.getLast? with
  | none => rfl
  | some c =>
    by_cases hcn : c = '\n'
    · subst hcn
      rw [h2 hl]
      simp
    · simp [hcn]

lemma addRecipient_error {a : String} (hval : validateEmailAddress a = false)
    (e : Email) (ty : String) :
    e.addRecipient a ty = .error (.invalidAddress ty a, e) := by
  unfold Email.addRecipient
  rw [hval]
  rfl

lemma addRecipient_ok {a : String} (hval : validateEmailAddress a = true)
    (e : Email) (ty : String) :
    ∃ e', e.addRecipient a ty = .ok e' := by
  unfold Email.addRecipient
  rw [hval]
  simp only [Bool.not_true, Bool.false_eq_true, if_false]
  split
  · exact ⟨_, rfl⟩
  · split
    · exact ⟨_, rfl⟩
    · exact ⟨_, rfl⟩

lemma recipientCall_error {a : String} (hval : validateEmailAddress a = false)
    (e : Email) (ty : Option String) :
    e.recipientCall a ty
      = .error (.invalidAddress (match ty with | some t => t | none => "TO") a, e) := by
  cases ty with
  | none => exact addRecipient_error hval e "TO"
  | some t => exact addRecipient_error hval e t

lemma recipientCall_ok {a : String} (hval : validateEmailAddress a = true)
    (e : Email) (ty : Option String) :
    ∃ e₁, e.recipientCall a ty = .ok e₁ := by
  cases ty with
  | none => exact addRecipient_ok hval e "TO"
  | some t => exact addRecipient_ok hval e t

lemma addRecipientList_cons (e : Email) (a : String) (frags : List String) (ty : Option String) :
    e.addRecipientList (a :: frags) ty =
      match e.recipientCall a ty with
      | .error er => .error er
      | .ok e' => e'.addRecipientList frags ty := rfl

lemma addRecipientList_cons_ok {e e₁ : Email} {a : String} {ty : Option String}
    (h : e.recipientCall a ty = .ok e₁) (frags : List String) :
    e.addRecipientList (a :: frags) ty = e₁.addRecipientList frags ty := by
  rw [addRecipientList_cons, h]

lemma addRecipientList_cons_error {e : Email} {er : Err × Email} {a : String} {ty : Option String}
    (h : e.recipientCall a ty = .error er) (frags : List String) :
    e.addRecipientList (a :: frags) ty = .error er := by
  rw [addRecipientList_cons, h]

/-- Running the recipient loop over valid fragments followed by an invalid
one raises `InvalidAddress` carrying exactly the state the valid prefix
produced. -/
lemma addRecipientList_partial {bad : String} (hbad : validateEmailAddress bad = false)
    (ty : Option String) (rest : List String) :
    ∀ (good : List String) (e : Email), (∀ a ∈ good, validateEmailAddress a = true) →
      ∃ e', e.addRecipientList good ty = .ok e'
        ∧ e.addRecipientList (good ++ bad :: rest) ty =
            .error (.invalidAddress (match ty with | some t => t | none => "TO") bad, e') := by
  intro good
  induction good with
  | nil =>
    intro e _
    exact ⟨e, rfl, addRecipientList_cons_error (recipientCall_error hbad e ty) rest⟩
  | cons a good ih =>
    intro e hgood
    obtain ⟨e₁, h₁⟩ := recipientCall_ok (hgood a (by simp)) e ty
    obtain ⟨e', hok, herr⟩ := ih e₁ (fun b hb => hgood b (by simp [hb]))
    refine ⟨e', ?_, ?_⟩
    · rw [addRecipientList_cons_ok h₁ good, hok]
    · rw [List.cons_append, addRecipientList_cons_ok h₁ (good ++ bad :: rest), herr]

lemma mem_headers_addHeader (m : MimePart) (h : Header) : h ∈ (m.addHeader h).headers := by
  cases m <;> simp [MimePart.addHeader, MimePart.headers]

lemma attachOne_notFound {env : Env} {p : String} (hp : env.pathExists p = false)
    (msg : MimePart) (nm : Option String) :
    attachOne env msg p nm = ([.fsExists p], .error (.attachmentNotFound p)) := by
  unfold attachOne
  rw [hp]
  rfl

lemma attachOne_notAFile {env : Env} {p : String} (hp : env.pathExists p = true)
    (hf : env.isFile p = false) (msg : MimePart) (nm : Option String) :
    attachOne env msg p nm = ([.fsExists p, .fsIsFile p], .error (.attachmentNotAFile p)) := by
  unfold attachOne
  rw [hp, hf]
  rfl

/-- Under a regular existing file and a guess pipeline that unpacks, one
attachment-loop iteration performs the three filesystem accesses and attaches
one part carrying the `Content-Disposition: attachment` header with the
display name, or the path's base name when none was given. -/
lemma attachOne_ok {env : Env} {f : String} (he : env.pathExists f = true)
    (hf : env.isFile f = true) (hg : guessOk env f = true) (msg : MimePart) (nm : Option String) :
    ∃ part, attachOne env msg f nm =
        ([.fsExists f, .fsIsFile f, .fsOpenRead f], .ok (msg.attach part))
      ∧ (⟨"Content-Disposition", "attachment",
          [("filename", match nm with | none => basename f | some n => n)]⟩ : Header)
          ∈ part.headers := by
  rcases hgt : env.guessType f with ⟨co, eo⟩
  unfold attachOne
  rw [he, hf]
  rcases co with _ | c
  · have hct : guessCType env f = "application/octet-stream" := by
      unfold guessCType
      rw [hgt]
    rw [hct]
    exact ⟨_, rfl, mem_headers_addHeader _ _⟩
  · rcases eo with _ | x
    · have hct : guessCType env f = c := by
        unfold guessCType
        rw [hgt]
      have hgeq : guessOk env f = (splitSlash1 c).isSome := by
        unfold guessOk
        rw [hgt]
      rw [hgeq] at hg
      obtain ⟨⟨mt, st⟩, hsp⟩ : ∃ pr, splitSlash1 c = some pr := by
        rcases hsp : splitSlash1 c with _ | pr
        · rw [hsp] at hg
          simp at hg
        · exact ⟨pr, rfl⟩
      rw [hct, hsp]
      simp only [Bool.not_true, Bool.false_eq_true, if_false]
      split
      · exact ⟨_, rfl, mem_headers_addHeader _ _⟩
      · split
        · exact ⟨_, rfl, mem_headers_addHeader _ _⟩
        · split
          · exact ⟨_, rfl, mem_headers_addHeader _ _⟩
          · exact ⟨_, rfl, mem_headers_addHeader _ _⟩
    · have hct : guessCType env f = "application/octet-stream" := by
        unfold guessCType
        rw [hgt]
      rw [hct]
      exact ⟨_, rfl, mem_headers_addHeader _ _⟩

/-- When the guessed type cannot be unpacked, the iteration raises the
`ValueError` of the tuple unpacking. -/
lemma attachOne_valueError {env : Env} {f : String} (he : env.pathExists f = true)
    (hf : env.isFile f = true) (hg : guessOk env f = false) (msg : MimePart) (nm : Option String) :
    attachOne env msg f nm = ([.fsExists f, .fsIsFile f], .error .pyValueError) := by
  rcases hgt : env.guessType f with ⟨co, eo⟩
  rcases co with _ | c
  · have hgeq : guessOk env f = true := by
      unfold guessOk
      rw [hgt]
    rw [hgeq] at hg
    exact absurd hg (by simp)
  · rcases eo with _ | x
    · have hgeq : guessOk env f = (splitSlash1 c).isSome := by
        unfold guessOk
        rw [hgt]
      rw [hgeq] at hg
      have hnone : splitSlash1 c = none := by
        rcases hsp : splitSlash1 c with _ | pr
        · rfl
        · rw [hsp] at hg
          simp at hg
      have hct : guessCType env f = c := by
        unfold guessCType
        rw [hgt]
      unfold attachOne
      rw [he, hf, hct, hnone]
      rfl
    · have hgeq : guessOk env f = true := by
        unfold guessOk
        rw [hgt]
      rw [hgeq] at hg
      exact absurd hg (by simp)

lemma attachOne_events_not_smtp (env : Env) (msg : MimePart) (f : String) (nm : Option String) :
    ((attachOne env msg f nm).1).all (fun ev => !ev.isSmtp) = true := by
  unfold attachOne
  split
  · rfl
  · split
    · rfl
    · split
      · rfl
      · rfl

lemma attachAll_cons (env : Env) (msg : MimePart) (f : String) (nm : Option String)
    (rest : List (String × Option String)) :
    attachAll env msg ((f, nm) :: rest) =
      match attachOne env msg f nm with
      | (evs, .error er) => (evs, .error er)
      | (evs, .ok msg') =>
        let (evs', r) := attachAll env msg' rest
        (evs ++ evs', r) := rfl

/-- The attachment loop performs filesystem accesses only. -/
lemma attachAll_events_not_smtp (env : Env) :
    ∀ (l : List (String × Option String)) (msg : MimePart),
      ((attachAll env msg l).1).all (fun ev => !ev.isSmtp) = true := by
  intro l
  induction l with
  | nil => intro msg; rfl
  | cons a rest ih =>
    intro msg
    rcases a with ⟨f, nm⟩
    have h1 := attachOne_events_not_smtp env msg f nm
    rw [attachAll_cons]
    rcases hone : attachOne env msg f nm with ⟨evs, r⟩
    rw [hone] at h1
    cases r with
    | error er => simpa using h1
    | ok msg' =>
      have h2 := ih msg'
      rcases hall : attachAll env msg' rest with ⟨evs', r'⟩
      rw [hall] at h2
      simp only at h1 h2
      show ((match attachAll env msg' rest with
             | (evs', r) => (evs ++ evs', r)).1.all fun ev => !ev.isSmtp) = true
      rw [hall]
      show ((evs ++ evs').all fun ev => !ev.isSmtp) = true
      rw [List.all_append, h1, h2]
      rfl

/-- The attachment loop succeeds on a list of regular existing files with
unpackable guesses. -/
lemma attachAll_ok {env : Env} :
    ∀ (l : List (String × Option String)) (msg : MimePart),
      (∀ q ∈ l, env.pathExists q.1 = true ∧ env.isFile q.1 = true ∧ guessOk env q.1 = true) →
      ∃ evs msg', attachAll env msg l = (evs, .ok msg') := by
  intro l
  induction l with
  | nil => intro msg _; exact ⟨[], msg, rfl⟩
  | cons q rest ih =>
    intro msg hall
    rcases q with ⟨f, nm⟩
    obtain ⟨hex, hisf, hg⟩ := hall (f, nm) (by simp)
    obtain ⟨part, hone, -⟩ := attachOne_ok hex hisf hg msg nm
    obtain ⟨evs, msg', hrec⟩ := ih (msg.attach part) (fun b hb => hall b (by simp [hb]))
    refine ⟨[Event.fsExists f, Event.fsIsFile f, Event.fsOpenRead f] ++ evs, msg', ?_⟩
    rw [attachAll_cons, hone]
    show (match attachAll env (msg.attach part) rest with
          | (evs', r) => ([Event.fsExists f, Event.fsIsFile f, Event.fsOpenRead f] ++ evs', r))
        = ([Event.fsExists f, Event.fsIsFile f, Event.fsOpenRead f] ++ evs, Except.ok msg')
    rw [hrec]

/-- The attachment loop propagates the exception raised at the first offending
attachment, after a prefix of well-formed ones. -/
lemma attachAll_prefix_error {env : Env} {p : String} {nm : Option String}
    {evs1 : List Event} {er : Err}
    (hbad : ∀ msg, attachOne env msg p nm = (evs1, .error er))
    (rest : List (String × Option String)) :
    ∀ (pre : List (String × Option String)) (msg : MimePart),
      (∀ q ∈ pre, env.pathExists q.1 = true ∧ env.isFile q.1 = true ∧ guessOk env q.1 = true) →
      ∃ evs, attachAll env msg (pre ++ (p, nm) :: rest) = (evs, .error er) := by
  intro pre
  induction pre with
  | nil =>
    intro msg _
    refine ⟨evs1, ?_⟩
    rw [List.nil_append, attachAll_cons, hbad msg]
  | cons q pre ih =>
    intro msg hpre
    rcases q with ⟨f, fnm⟩
    obtain ⟨hex, hisf, hg⟩ := hpre (f, fnm) (by simp)
    obtain ⟨part, hone, -⟩ := attachOne_ok hex hisf hg msg fnm
    obtain ⟨evs, hrec⟩ := ih (msg.attach part) (fun b hb => hpre b (by simp [hb]))
    refine ⟨[Event.fsExists f, Event.fsIsFile f, Event.fsOpenRead f] ++ evs, ?_⟩
    rw [List.cons_append, attachAll_cons, hone]
    show (match attachAll env (msg.attach part) (pre ++ (p, nm) :: rest) with
          | (evs', r) => ([Event.fsExists f, Event.fsIsFile f, Event.fsOpenRead f] ++ evs', r))
        = ([Event.fsExists f, Event.fsIsFile f, Event.fsOpenRead f] ++ evs, Except.error er)
    rw [hrec]

lemma assembleRest_attach_error {e : Email} {env : Env} {body : MimePart}
    {evs : List Event} {er : Err}
    (h : attachAll env (wrapIfAttach e body) e.attach = (evs, .error er)) :
    assembleRest e env body = (evs, .error er) := by
  unfold assembleRest
  rw [h]

lemma assembleRest_no_from {e : Email} {env : Env} {body : MimePart}
    {evs : List Event} {msg1 : MimePart}
    (hfrom : e.from_ = none)
    (h : attachAll env (wrapIfAttach e body) e.attach = (evs, .ok msg1)) :
    assembleRest e env body = (evs, .error .attributeError) := by
  unfold assembleRest
  rw [h, hfrom]

lemma assembleMessage_eq_body {e : Email} (env : Env)
    (hb : ¬(e.textBody = none ∧ e.htmlBody = none)) (hto : e.to_ ≠ []) :
    assembleMessage e env = assembleBody e env := by
  unfold assembleMessage
  have h1 : (e.textBody.isNone && e.htmlBody.isNone) = false := by
    rcases ht : e.textBody with _ | t
    · rcases hh : e.htmlBody with _ | hv
      · exact absurd ⟨ht, hh⟩ hb
      · simp
    · simp
  have h2 : (e.to_.length == 0) = false := by
    simp [List.length_eq_zero, hto]
  rw [h1, h2]
  rfl

lemma send_of_assemble_error {e : Email} {env : Env} {evs : List Event} {er : Err}
    (h : assembleMessage e env = (evs, .error er)) :
    send e env = (evs, .error er) := by
  unfold send
  rw [h]

lemma send_of_assemble_ok {e : Email} {env : Env} {evs : List Event} {msg : MimePart} {f : String}
    (h : assembleMessage e env = (evs, .ok (msg, f))) :
    send e env = (evs ++ (transmit e env f msg).1, .ok (transmit e env f msg).2) := by
  unfold send
  rw [h]

/-- A successful assembly means `send` performs the `sendmail` submission of
exactly the assembled message. -/
lemma sendmail_event_mem {e : Email} {env : Env} {evs : List Event} {msg : MimePart} {f : String}
    (h : assembleMessage e env = (evs, .ok (msg, f))) :
    Event.smtpSendmail f (e.to_ ++ e.cc ++ e.bcc) msg ∈ (send e env).1 := by
  rw [send_of_assemble_ok h]
  simp only [List.mem_append]
  right
  unfold transmit
  simp

/-- Headers appended without a reply-to address, when the attachment loop ran
over no attachments: the full assembly result. -/
lemma assembleRest_no_attach {e : Email} {f : String} (env : Env) (hfrom : e.from_ = some f)
    (hatt : e.attach = []) (body : MimePart) :
    assembleRest e env body = ([], .ok (
      (match e.replyTo with
       | none => ((((body.addHeader ⟨"Subject", e.subject, []⟩).addHeader
           ⟨"From", f, []⟩).addHeader ⟨"To", joinComma e.to_, []⟩).addHeader
           ⟨"CC", joinComma e.cc, []⟩).addHeader ⟨"BCC", joinComma e.bcc, []⟩
       | some r => (((((body.addHeader ⟨"Subject", e.subject, []⟩).addHeader
           ⟨"From", f, []⟩).addHeader ⟨"To", joinComma e.to_, []⟩).addHeader
           ⟨"CC", joinComma e.cc, []⟩).addHeader ⟨"BCC", joinComma e.bcc, []⟩).addHeader
           ⟨"reply-to", r, []⟩), f)) := by
  unfold assembleRest wrapIfAttach
  rw [hatt, hfrom]
  rfl

/-- Dispatch over the three reachable body configurations: if every body part
makes `assembleRest` raise `er` with filesystem-only events, `send` raises
`er` having performed no SMTP operation. -/
lemma send_error_of_assembleRest {e : Email} {env : Env} {er : Err}
    (hb : ¬(e.textBody = none ∧ e.htmlBody = none)) (hto : e.to_ ≠ [])
    (key : ∀ body, ∃ evs, assembleRest e env body = (evs, .error er)
      ∧ evs.all (fun ev => !ev.isSmtp) = true) :
    (send e env).2 = .error er
    ∧ ((send e env).1).all (fun ev => !ev.isSmtp) = true := by
  have hsend : ∃ evs, send e env = (evs, .error er)
      ∧ evs.all (fun ev => !ev.isSmtp) = true := by
    have hred : assembleMessage e env = assembleBody e env := assembleMessage_eq_body env hb hto
    rcases ht : e.textBody with _ | t
    · rcases hh : e.htmlBody with _ | hv
      · exact absurd ⟨ht, hh⟩ hb
      · obtain ⟨evs, hrest, hevs⟩ := key (.textPart hv "html" [])
        refine ⟨evs, send_of_assemble_error ?_, hevs⟩
        rw [hred]
        unfold assembleBody
        rw [ht, hh]
        exact hrest
    · rcases hh : e.htmlBody with _ | hv
      · obtain ⟨evs, hrest, hevs⟩ := key (.textPart t "plain" [])
        refine ⟨evs, send_of_assemble_error ?_, hevs⟩
        rw [hred]
        unfold assembleBody
        rw [ht, hh]
        exact hrest
      · obtain ⟨evs, hrest, hevs⟩ := key
          (.multiPart "alternative" [.textPart t "plain" [], .textPart hv "html" []] [])
        refine ⟨evs, send_of_assemble_error ?_, hevs⟩
        rw [hred]
        unfold assembleBody
        rw [ht, hh]
        exact hrest
  obtain ⟨evs, hs, hevs⟩ := hsend
  rw [hs]
  exact ⟨rfl, hevs⟩

/-- Common machinery for the claims about failing attachment processing:
if every wrapped body makes the attachment loop raise `er`, then `send`
raises `er` having performed no SMTP operation. -/
lemma send_attachAll_error {e : Email} {env : Env}
    (hb : e.textBody ≠ none ∨ e.htmlBody ≠ none) (hto : e.to_ ≠ []) {er : Err}
    (hatt : ∀ msg, ∃ evs, attachAll env msg e.attach = (evs, .error er)) :
    (send e env).2 = .error er
    ∧ ((send e env).1).all (fun ev => !ev.isSmtp) = true := by
  have hb' : ¬(e.textBody = none ∧ e.htmlBody = none) := by
    rintro ⟨h1, h2⟩
    rcases hb with hb | hb
    · exact hb h1
    · exact hb h2
  refine send_error_of_assembleRest hb' hto ?_
  intro body
  obtain ⟨evs, heq⟩ := hatt (wrapIfAttach e body)
  refine ⟨evs, assembleRest_attach_error heq, ?_⟩
  have hall := attachAll_events_not_smtp env e.attach (wrapIfAttach e body)
  rw [heq] at hall
  simpa using hall

/- ### Claim theorems -/

/-- Claim C2: `validateAddress` returns true on every string literally
matching `^[^@]+@[^@]+\.[^@]+$`, and returns false on every string whose
`'@'`-count is not exactly one and on every string with no `'.'` after its
first `'@'`.  (The predicate is a pure function of the address by
construction: it reads no object state.) -/
theorem validateEmailAddress_spec (s : String) :
    (specLiteralMatch s → validateEmailAddress s = true)
    ∧ (s.data.count '@' ≠ 1 → validateEmailAddress s = false)
    ∧ ('.' ∉ (s.data.dropWhile (fun c => c != '@')).drop 1 →
        validateEmailAddress s = false) := by
  refine ⟨?_, ?_, ?_⟩
  · rintro ⟨A, B, C, hd, hA, hB, hC, hAa, hBa, hCa⟩
    have hcm : emailCoreMatch s.data = true := by
      rw [hd]
      exact emailCoreMatch_of_decomp hA hB hC hAa hBa hCa
    unfold validateEmailAddress
    rw [hcm]
    rfl
  · intro hcount
    have h1 : emailCoreMatch s.data = false := by
      cases hc : emailCoreMatch s.data
      · rfl
      · exact absurd (count_at_of_emailCoreMatch hc) hcount
    refine validateEmailAddress_eq_false h1 ?_
    intro hl
    have hdl : s.data = s.data.dropLast ++ ['\n'] := data_eq_dropLast_append hl
    have hcount' : s.data.dropLast.count '@' ≠ 1 := by
      intro hcl
      apply hcount
      calc s.data.count '@' = (s.data.dropLast ++ ['\n']).count '@' := by rw [← hdl]
        _ = s.data.dropLast.count '@' + ['\n'].count '@' := List.count_append _ _ _
        _ = s.data.dropLast.count '@' := by simp [List.count_singleton]
        _ = 1 := hcl
    cases hc : emailCoreMatch s.data.dropLast
    · rfl
    · exact absurd (count_at_of_emailCoreMatch hc) hcount'
  · intro hno
    have h1 : emailCoreMatch s.data = false := emailCoreMatch_false_of_no_dot hno
    refine validateEmailAddress_eq_false h1 ?_
    intro hl
    have hdl : s.data = s.data.dropLast ++ ['\n'] := data_eq_dropLast_append hl
    refine emailCoreMatch_false_of_no_dot ?_
    intro hmem
    apply hno
    rcases hdwt : s.data.dropLast.dropWhile (fun c => c != '@') with _ | ⟨d, r⟩
    · rw [hdwt] at hmem
      simp at hmem
    · have hdww : s.data.dropWhile (fun c => c != '@') = (d :: r) ++ ['\n'] := by
        conv =>
          lhs
          rw [hdl]
        rw [List.dropWhile_append, hdwt]
        simp
      rw [hdww]
      rw [hdwt] at hmem
      simp only [List.drop_one, List.tail_cons] at hmem ⊢
      simp [hmem]

/-- Claim C2 witness: the spec's three examples. -/
theorem validateEmailAddress_spec_witness :
    validateEmailAddress "a@b.com" = true
    ∧ validateEmailAddress "a@@b.com" = false
    ∧ validateEmailAddress "a.com" = false :=
  ⟨(validateEmailAddress_spec "a@b.com").1 ⟨['a'], ['b'], ['c', 'o', 'm'], by decide⟩,
   (validateEmailAddress_spec "a@@b.com").2.1 (by decide),
   (validateEmailAddress_spec "a.com").2.2 (by decide)⟩

/-- Claim C9 counterexample: `"a@b.com\n"` is a pattern match followed by one
trailing newline, yet it also literally has the pattern's form
`<non-"@">@<non-"@">.<non-"@">` with nothing after, because the character
class `[^@]` matches the newline character itself — refuting the claim's
assertion that such inputs do not literally have that form. -/
theorem validateEmailAddress_newline_literal_counterexample :
    specLiteralMatch "a@b.com" ∧ ("a@b.com\n" : String) = "a@b.com".push '\n'
    ∧ specLiteralMatch "a@b.com\n" ∧ validateEmailAddress "a@b.com\n" = true := by
  refine ⟨⟨['a'], ['b'], ['c', 'o', 'm'], by decide⟩, by decide,
    ⟨['a'], ['b'], ['c', 'o', 'm', '\n'], by decide⟩, by decide⟩

/-- Claim C9 amended: `validateEmailAddress` does return true on every
pattern match followed by exactly one trailing newline — but such inputs also
literally match the pattern, since `[^@]` accepts `'\n'`. -/
theorem validateEmailAddress_trailing_newline (s : String) (h : specLiteralMatch s) :
    validateEmailAddress (s.push '\n') = true ∧ specLiteralMatch (s.push '\n') := by
  obtain ⟨A, B, C, hd, hA, hB, hC, hAa, hBa, hCa⟩ := h
  have hd' : (s.push '\n').data = A ++ '@' :: (B ++ '.' :: (C ++ ['\n'])) := by
    have hp : (s.push '\n').data = s.data ++ ['\n'] := by
      rcases s with ⟨data⟩
      rfl
    rw [hp, hd]
    simp
  have hm : specLiteralMatch (s.push '\n') := by
    refine ⟨A, B, C ++ ['\n'], hd', hA, hB, by simp, hAa, hBa, ?_⟩
    intro hmem
    rcases List.mem_append.mp hmem with h | h
    · exact hCa h
    · simp at h
  refine ⟨?_, hm⟩
  have hcm : emailCoreMatch (s.push '\n').data = true := by
    rw [hd']
    refine emailCoreMatch_of_decomp hA hB (by simp) hAa hBa ?_
    intro hmem
    rcases List.mem_append.mp hmem with h | h
    · exact hCa h
    · simp at h
  unfold validateEmailAddress
  rw [hcm]
  rfl

/-- Claim C9 amended witness: the amended statement at `"a@b.com"`. -/
theorem validateEmailAddress_trailing_newline_witness :
    validateEmailAddress ("a@b.com".push '\n') = true ∧ specLiteralMatch ("a@b.com".push '\n') :=
  validateEmailAddress_trailing_newline "a@b.com" ⟨['a'], ['b'], ['c', 'o', 'm'], by decide⟩

/-- Claim C4 counterexample: for the input `"a@b.com,,c@d.com"` the claim
predicts the empty fragment between the two commas is discarded, so that
`addRecipients` succeeds with `to == ["a@b.com","c@d.com"]`; the code keeps
the empty fragment and hands it to `addRecipient`, which raises
`InvalidAddress`, with only the first address appended. -/
theorem addRecipients_empty_fragment_counterexample :
    Email.addRecipients testEmail "a@b.com,,c@d.com" none =
      .error (.invalidAddress "TO" "", { testEmail with to_ := ["a@b.com"] }) := rfl

/-- Claim C4 amended: `addRecipients` splits on a single comma/LF/CR followed
by a run of whitespace (after trimming commas/LF/CR from both ends), keeps
empty fragments (handing them to `addRecipient`, where they fail validation),
and uses the default `TO` kind per fragment when the kind is omitted; the
claim's example does yield `to == ["a@b.com","c@d.com","e@f.com"]`. -/
theorem addRecipients_split_behavior :
    Email.addRecipients testEmail "a@b.com, c@d.com\ne@f.com" none =
      .ok { testEmail with to_ := ["a@b.com", "c@d.com", "e@f.com"] }
    ∧ pySplitDelim isAddressDelim "a@b.com,,c@d.com".data false =
        ["a@b.com".data, [], "c@d.com".data]
    ∧ Email.addRecipients testEmail ",a@b.com,\n" none =
        .ok { testEmail with to_ := ["a@b.com"] } :=
  ⟨rfl, rfl, rfl⟩

/-- Claim C7 counterexample: `addRecipients("a@b.com,x")` raises
`InvalidAddress` on the second fragment, but the object does not keep the
state it had before the call — the first fragment is already appended to
`to`. -/
theorem addRecipients_partial_state_counterexample :
    Email.addRecipients testEmail "a@b.com,x" none =
      .error (.invalidAddress "TO" "x", { testEmail with to_ := ["a@b.com"] })
    ∧ ({ testEmail with to_ := ["a@b.com"] } : Email) ≠ testEmail :=
  ⟨rfl, by decide⟩

/-- Claim C7 amended: the single-address setters (`setFrom`, `setReplyTo`,
`addRecipient`) reject an invalid address with `InvalidAddress` and leave the
object exactly as it was; `addRecipients`, however, validates fragment by
fragment, so an invalid later fragment raises `InvalidAddress` with the
fragments before it already appended (the carried state is the state the
valid prefix produced). -/
theorem invalid_address_setters (e : Email) :
    (∀ addr, validateEmailAddress addr = false →
      e.setFrom addr = .error (.invalidAddress "FROM" addr, e)
      ∧ e.setReplyTo addr = .error (.invalidAddress "REPLY-TO" addr, e)
      ∧ ∀ ty, e.addRecipient addr ty = .error (.invalidAddress ty addr, e))
    ∧ (∀ ty good bad rest, (∀ a ∈ good, validateEmailAddress a = true) →
        validateEmailAddress bad = false →
        ∃ e', e.addRecipientList good ty = .ok e'
          ∧ e.addRecipientList (good ++ bad :: rest) ty =
              .error (.invalidAddress (match ty with | some t => t | none => "TO") bad, e')) := by
  constructor
  · intro addr hval
    refine ⟨?_, ?_, fun ty => addRecipient_error hval e ty⟩
    · unfold Email.setFrom
      rw [hval]
      rfl
    · unfold Email.setReplyTo
      rw [hval]
      rfl
  · intro ty good bad rest hgood hbad
    exact addRecipientList_partial hbad ty rest good e hgood

/-- Claim C7 amended witness: the atomic `setFrom` failure and the
partial-state `addRecipients` loop at concrete inputs. -/
theorem invalid_address_setters_witness :
    Email.setFrom testEmail "bad" = .error (.invalidAddress "FROM" "bad", testEmail)
    ∧ ∃ e', Email.addRecipientList testEmail ["a@b.com"] none = .ok e'
        ∧ Email.addRecipientList testEmail (["a@b.com"] ++ "x" :: []) none =
            .error (.invalidAddress "TO" "x", e') :=
  ⟨((invalid_address_setters testEmail).1 "bad" (by decide)).1,
   (invalid_address_setters testEmail).2 none ["a@b.com"] "x" [] (by decide) (by decide)⟩

/-- Claim C8 counterexample: an empty (but non-null) filePath is not a silent
no-op — `addAttachment` only returns early on `None` (`if filepath is None`),
so the empty string is appended like any other path. -/
theorem addAttachment_empty_counterexample :
    Email.addAttachment testEmail (some "") none = { testEmail with attach := [("", none)] }
    ∧ Email.addAttachment testEmail (some "") none ≠ testEmail :=
  ⟨rfl, by decide⟩

/-- Claim C8 amended: `addAttachment` with a null filePath is a silent no-op;
with any non-null filePath — the empty string included — it appends the
(filePath, displayName) pair unconditionally, performing no existence check
(it consults no filesystem collaborator at all). -/
theorem addAttachment_behavior (e : Email) (attachname : Option String) :
    Email.addAttachment e none attachname = e
    ∧ ∀ p : String, Email.addAttachment e (some p) attachname =
        { e with attach := e.attach ++ [(p, attachname)] } :=
  ⟨rfl, fun _ => rfl⟩

/-- Claim C1: with neither body set, `send` raises `MissingBody` — whatever
the recipient lists, attachments, or environment, and with no collaborator
event at all; with a body set but an empty `to` list it raises
`MissingRecipient`, again with no event.  The quantification over every
environment and every attachment list is what makes "before any body
assembly, attachment file access, or network I/O" a theorem: the outcome is
independent of all of them, and the event trace is empty. -/
theorem send_precondition_checks (e : Email) (env : Env) :
    (e.textBody = none → e.htmlBody = none → send e env = ([], .error .missingBody))
    ∧ (e.textBody ≠ none ∨ e.htmlBody ≠ none → e.to_ = [] →
        send e env = ([], .error .missingRecipient)) := by
  constructor
  · intro ht hh
    apply send_of_assemble_error
    unfold assembleMessage
    rw [ht, hh]
    rfl
  · intro hb hto
    apply send_of_assemble_error
    unfold assembleMessage
    have h1 : (e.textBody.isNone && e.htmlBody.isNone) = false := by
      rcases ht : e.textBody with _ | t
      · rcases hh : e.htmlBody with _ | hv
        · rcases hb with hb | hb
          · exact absurd ht hb
          · exact absurd hh hb
        · simp
      · simp
    rw [h1, hto]
    rfl

/-- Claim C1 witness: a fresh message and one with only a text body but no
recipient. -/
theorem send_precondition_checks_witness :
    send testEmail envAllGood = ([], .error .missingBody)
    ∧ send { testEmail with textBody := some "hello" } envAllGood =
        ([], .error .missingRecipient) :=
  ⟨(send_precondition_checks testEmail envAllGood).1 rfl rfl,
   (send_precondition_checks { testEmail with textBody := some "hello" } envAllGood).2
     (Or.inl (by simp)) rfl⟩

/-- Claim C3: in `send`, with only the text body set the submitted message is
a single `plain` part; with only the HTML body set, a single `html` part; with
both set, a multipart `alternative` container whose parts are the plain part
first and the HTML part second.  Stated on the `sendmail` submission event
that `send` performs (attachment-free message so the body is the whole
message; the headers added on top of it are existentially quantified). -/
theorem send_body_parts (e : Email) (env : Env) (f : String)
    (hf : e.from_ = some f) (hto : e.to_ ≠ []) (hatt : e.attach = []) :
    (∀ t, e.textBody = some t → e.htmlBody = none →
      ∃ hs, Event.smtpSendmail f (e.to_ ++ e.cc ++ e.bcc) (.textPart t "plain" hs)
        ∈ (send e env).1)
    ∧ (∀ h, e.textBody = none → e.htmlBody = some h →
      ∃ hs, Event.smtpSendmail f (e.to_ ++ e.cc ++ e.bcc) (.textPart h "html" hs)
        ∈ (send e env).1)
    ∧ (∀ t h, e.textBody = some t → e.htmlBody = some h →
      ∃ hs, Event.smtpSendmail f (e.to_ ++ e.cc ++ e.bcc)
          (.multiPart "alternative" [.textPart t "plain" [], .textPart h "html" []] hs)
        ∈ (send e env).1) := by
  refine ⟨?_, ?_, ?_⟩
  · intro t ht hh
    have hb : ¬(e.textBody = none ∧ e.htmlBody = none) := by
      rintro ⟨h1, -⟩
      rw [ht] at h1
      exact Option.noConfusion h1
    have hM := assembleRest_no_attach env hf hatt (.textPart t "plain" [])
    have hasm := assembleMessage_eq_body env hb hto
    unfold assembleBody at hasm
    rw [ht, hh] at hasm
    have hmem := sendmail_event_mem (hasm.trans hM)
    cases hr : e.replyTo with
    | none =>
      rw [hr] at hmem
      exact ⟨_, hmem⟩
    | some r =>
      rw [hr] at hmem
      exact ⟨_, hmem⟩
  · intro h ht hh
    have hb : ¬(e.textBody = none ∧ e.htmlBody = none) := by
      rintro ⟨-, h2⟩
      rw [hh] at h2
      exact Option.noConfusion h2
    have hM := assembleRest_no_attach env hf hatt (.textPart h "html" [])
    have hasm := assembleMessage_eq_body env hb hto
    unfold assembleBody at hasm
    rw [ht, hh] at hasm
    have hmem := sendmail_event_mem (hasm.trans hM)
    cases hr : e.replyTo with
    | none =>
      rw [hr] at hmem
      exact ⟨_, hmem⟩
    | some r =>
      rw [hr] at hmem
      exact ⟨_, hmem⟩
  · intro t h ht hh
    have hb : ¬(e.textBody = none ∧ e.htmlBody = none) := by
      rintro ⟨h1, -⟩
      rw [ht] at h1
      exact Option.noConfusion h1
    have hM := assembleRest_no_attach env hf hatt
      (.multiPart "alternative" [.textPart t "plain" [], .textPart h "html" []] [])
    have hasm := assembleMessage_eq_body env hb hto
    unfold assembleBody at hasm
    rw [ht, hh] at hasm
    have hmem := sendmail_event_mem (hasm.trans hM)
    cases hr : e.replyTo with
    | none =>
      rw [hr] at hmem
      exact ⟨_, hmem⟩
    | some r =>
      rw [hr] at hmem
      exact ⟨_, hmem⟩

/-- Claim C3 witness: a message with both bodies set submits the alternative
container with the plain part first. -/
theorem send_body_parts_witness :
    ∃ hs, Event.smtpSendmail "a@b.com" (["c@d.com"] ++ [] ++ [])
        (.multiPart "alternative" [.textPart "T" "plain" [], .textPart "H" "html" []] hs)
      ∈ (send emailBoth envAllGood).1 :=
  (send_body_parts emailBoth envAllGood "a@b.com" rfl (by simp [emailBoth]) rfl).2.2
    "T" "H" rfl rfl

/-- Claim C5: with a body and a recipient present, if the first offending
attachment path does not exist, `send` raises `AttachmentNotFound` and
performs no SMTP operation at all (in particular the message is never
submitted); if that path exists but is not a regular file, it raises
`AttachmentNotAFile`, likewise without touching the transport.  `addAttachment`
itself takes no filesystem collaborator: adding appends unconditionally, so
existence is never checked at add-time. -/
theorem send_attachment_errors (e : Email) (env : Env)
    (hb : e.textBody ≠ none ∨ e.htmlBody ≠ none) (hto : e.to_ ≠ [])
    (pre : List (String × Option String)) (p : String) (nm : Option String)
    (rest : List (String × Option String))
    (hatt : e.attach = pre ++ (p, nm) :: rest)
    (hpre : ∀ q ∈ pre, env.pathExists q.1 = true ∧ env.isFile q.1 = true
      ∧ guessOk env q.1 = true) :
    (env.pathExists p = false →
      (send e env).2 = .error (.attachmentNotFound p)
      ∧ ((send e env).1).all (fun ev => !ev.isSmtp) = true)
    ∧ (env.pathExists p = true → env.isFile p = false →
      (send e env).2 = .error (.attachmentNotAFile p)
      ∧ ((send e env).1).all (fun ev => !ev.isSmtp) = true)
    ∧ (∀ (e' : Email) (nm' : Option String),
        (Email.addAttachment e' (some p) nm').attach = e'.attach ++ [(p, nm')]) := by
  refine ⟨?_, ?_, fun e' nm' => rfl⟩
  · intro hp
    apply send_attachAll_error hb hto
    intro msg
    rw [hatt]
    exact attachAll_prefix_error (fun m => attachOne_notFound hp m nm) rest pre msg hpre
  · intro hp hisf
    apply send_attachAll_error hb hto
    intro msg
    rw [hatt]
    exact attachAll_prefix_error (fun m => attachOne_notAFile hp hisf m nm) rest pre msg hpre

/-- Claim C5 witness: a valid message with one nonexistent attachment path
fails with `AttachmentNotFound` and performs no SMTP operation. -/
theorem send_attachment_errors_witness :
    (send emailOneAttach envNothingExists).2 = .error (.attachmentNotFound "/absent")
    ∧ ((send emailOneAttach envNothingExists).1).all (fun ev => !ev.isSmtp) = true :=
  (send_attachment_errors emailOneAttach envNothingExists (Or.inl (by simp [emailOneAttach]))
    (by simp [emailOneAttach]) [] "/absent" none [] rfl (by simp)).1 rfl

/-- Claim C6: for an attachment whose content type cannot be guessed, or whose
guess carries a content encoding, the loop embeds a generic
`application/octet-stream` binary part, explicitly Base64
content-transfer-encoded; and every successfully attached part carries a
`Content-Disposition: attachment` header whose filename is the explicit
display name when one was supplied, else the path's base filename. -/
theorem attachment_octet_stream (env : Env) (msg : MimePart) (f : String) (nm : Option String)
    (he : env.pathExists f = true) (hf : env.isFile f = true) :
    ((env.guessType f).1 = none ∨ (env.guessType f).2 ≠ none →
      attachOne env msg f nm =
        ([.fsExists f, .fsIsFile f, .fsOpenRead f],
         .ok (msg.attach (.basePart "application" "octet-stream" (env.readFile f) true
           [⟨"Content-Transfer-Encoding", "base64", []⟩,
            ⟨"Content-Disposition", "attachment",
             [("filename", match nm with | none => basename f | some n => n)]⟩]))))
    ∧ (∀ evs msg', attachOne env msg f nm = (evs, .ok msg') →
        ∃ part, msg' = msg.attach part
          ∧ (⟨"Content-Disposition", "attachment",
              [("filename", match nm with | none => basename f | some n => n)]⟩ : Header)
            ∈ part.headers) := by
  constructor
  · intro hyp
    rcases hgt : env.guessType f with ⟨co, eo⟩
    rw [hgt] at hyp
    unfold attachOne
    rw [he, hf]
    rcases co with _ | c
    · have hct : guessCType env f = "application/octet-stream" := by
        unfold guessCType
        rw [hgt]
      rw [hct]
      rfl
    · rcases eo with _ | x
      · simp at hyp
      · have hct : guessCType env f = "application/octet-stream" := by
          unfold guessCType
          rw [hgt]
        rw [hct]
        rfl
  · intro evs msg' hsucc
    by_cases hg : guessOk env f = true
    · obtain ⟨part, heq, hmem⟩ := attachOne_ok he hf hg msg nm
      rw [heq] at hsucc
      have h2 := congrArg Prod.snd hsucc
      simp only [Except.ok.injEq] at h2
      exact ⟨part, h2.symm, hmem⟩
    · rw [attachOne_valueError he hf (by simpa using hg) msg nm] at hsucc
      have h2 := congrArg Prod.snd hsucc
      simp at h2

/-- Claim C6 witness: an unguessable attachment at a concrete environment,
with no display name, so the filename parameter is the path's base name. -/
theorem attachment_octet_stream_witness :
    attachOne envAllGood (.multiPart "mixed" [] []) "dir/file.xyz" none =
      ([.fsExists "dir/file.xyz", .fsIsFile "dir/file.xyz", .fsOpenRead "dir/file.xyz"],
       .ok ((MimePart.multiPart "mixed" [] []).attach
         (.basePart "application" "octet-stream" "PAYLOAD" true
           [⟨"Content-Transfer-Encoding", "base64", []⟩,
            ⟨"Content-Disposition", "attachment", [("filename", "file.xyz")]⟩]))) :=
  (attachment_octet_stream envAllGood (.multiPart "mixed" [] []) "dir/file.xyz" none
    rfl rfl).1 (Or.inl rfl)

/-- Claim C10: when `setFrom` never ran, a message with a body and a
recipient passes both named precondition checks and completes body and
attachment assembly (the attachments being readable regular files), then
fails with the generic attribute-lookup error — not `InvalidAddress` nor any
named error kind — and performs no SMTP operation. -/
theorem send_no_from (e : Email) (env : Env)
    (hfrom : e.from_ = none)
    (hb : e.textBody ≠ none ∨ e.htmlBody ≠ none) (hto : e.to_ ≠ [])
    (hatt : ∀ q ∈ e.attach, env.pathExists q.1 = true ∧ env.isFile q.1 = true
      ∧ guessOk env q.1 = true) :
    (send e env).2 = .error .attributeError
    ∧ ((send e env).1).all (fun ev => !ev.isSmtp) = true := by
  have hb' : ¬(e.textBody = none ∧ e.htmlBody = none) := by
    rintro ⟨h1, h2⟩
    rcases hb with hb | hb
    · exact hb h1
    · exact hb h2
  refine send_error_of_assembleRest hb' hto ?_
  intro body
  obtain ⟨evs, msg1, heq⟩ := attachAll_ok e.attach (wrapIfAttach e body) hatt
  refine ⟨evs, assembleRest_no_from hfrom heq, ?_⟩
  have hall := attachAll_events_not_smtp env e.attach (wrapIfAttach e body)
  rw [heq] at hall
  simpa using hall

/-- Claim C10 witness: a message with a body, a recipient, and one readable
attachment, but no sender ever set. -/
theorem send_no_from_witness :
    (send emailNoFrom envAllGood).2 = .error .attributeError
    ∧ ((send emailNoFrom envAllGood).1).all (fun ev => !ev.isSmtp) = true :=
  send_no_from emailNoFrom envAllGood rfl (Or.inl (by simp [emailNoFrom]))
    (by simp [emailNoFrom]) (by simp [emailNoFrom, envAllGood, guessOk])

end EmailPro
